import Mathlib

/-!
Verification of the change-tracking / sync coordinator of QRBookmark
(`src/sync.js`), as a shallow embedding.

The JavaScript code is single-threaded and every operation runs to
completion between suspension points, so every method is embedded as a
pure state transformer on `SyncState`.  External collaborators
(`navigator.onLine`, `Date.now()`, the bookmark repository) are passed in
as explicit parameters.  The durable key-value store is folded into the
state: `lastSyncVersion` keeps its absent/present distinction
(`Option Nat`) because `resetSyncCache` removes the key, while the
`pendingChanges` key is modelled as a `ChangeMap` directly (no operation
distinguishes an absent value from the empty map that
`get(STORAGE_KEY) || {}` yields).

JavaScript objects and `Map`s are modelled as association lists with
JS semantics: assigning to an existing key replaces the value in place,
assigning to a fresh key appends it.
-/

set_option autoImplicit false

namespace QRBookmark

/-- A bookmark entity as stored by `LocalStorageMgr` (`tags` and `excerpt`
may be absent, cf. the `|| []` / `|| ''` defaults in
`convertToServerFormat`). -/
structure Bookmark where
  id : String
  url : String
  title : String
  tags : Option (List String)
  excerpt : Option String
  createdAt : Nat
  updatedAt : Nat
deriving DecidableEq, Repr

/-- The "server format" record built by `SyncManager.convertToServerFormat`
(src/sync.js lines 158-169). -/
structure ServerBookmark where
  id : String
  url : String
  title : String
  tags : List String
  excerpt : String
  createdAt : Nat
  updatedAt : Nat
  deleted : Bool
deriving DecidableEq, Repr

/-- One entry of the pending-change map: `{ timestamp: Date.now(), change: ... }`
(src/sync.js lines 200-203). -/
structure PendingChange where
  timestamp : Nat
  change : ServerBookmark
deriving DecidableEq, Repr

/-- A JS object / `Map` from bookmark URL to pending change, as an
association list in insertion order. -/
abbrev ChangeMap := List (String × PendingChange)

/-- JS assignment `m[k] = v` (and `Map.set`): replace the value of an
existing key in place, append a fresh key at the end. -/
def setEntry (m : ChangeMap) (k : String) (v : PendingChange) : ChangeMap :=
  match m with
  | [] => [(k, v)]
  | (k', v') :: rest => if k' = k then (k, v) :: rest else (k', v') :: setEntry rest k v

/-- JS property lookup `m[k]` on an association list. -/
def cmLookup (m : ChangeMap) (k : String) : Option PendingChange :=
  match m with
  | [] => none
  | (k', v) :: rest => if k' = k then some v else cmLookup rest k

/-- The mutable state of the `SyncManager` / `LocalChangeManager` pair plus
the durable store keys they own.  `tempQueue` is the in-memory overflow
`Map` of `LocalChangeManager`. -/
structure SyncState where
  lastSyncVersion : Option Nat
  pendingChanges : ChangeMap
  isSyncing : Bool
  tempQueue : ChangeMap
deriving DecidableEq, Repr

/-- The two errors thrown by the sync strategies: `'同步正在进行中'`
(already syncing) and `'网络连接不可用…'` (network unavailable). -/
inductive SyncError where
  | alreadySyncing
  | networkUnavailable
deriving DecidableEq, Repr

/-- The success record `{ lastSync, lastSyncResult: 'success' }`. -/
structure SyncResult where
  lastSync : Nat
  lastSyncResult : String
deriving DecidableEq, Repr

/-- `SyncManager.getSyncVersion` (src/sync.js line 12):
`await LocalStorageMgr.get('lastSyncVersion') || 0` — an absent key (and a
stored 0, which is falsy) both give 0. -/
def getSyncVersion (st : SyncState) : Nat :=
  st.lastSyncVersion.getD 0

/-- `SyncManager.canSync` (src/sync.js lines 56-64): just the connectivity
predicate `navigator.onLine` now that token checking was removed. -/
def canSync (online : Bool) : Bool :=
  online

/-- `SyncManager.convertToServerFormat` (src/sync.js lines 158-169).  The
function takes a single parameter and hardcodes `deleted: false`; the
`isDeleted` second argument at the call site in `addChange` is silently
dropped by JavaScript. -/
def convertToServerFormat (bookmark : Bookmark) : ServerBookmark :=
  { id := bookmark.id
    url := bookmark.url
    title := bookmark.title
    tags := bookmark.tags.getD []
    excerpt := bookmark.excerpt.getD ""
    createdAt := bookmark.createdAt
    updatedAt := bookmark.updatedAt
    deleted := false }

/-- `LocalChangeManager.getPendingChanges` (src/sync.js lines 185-188). -/
def getPendingChanges (st : SyncState) : ChangeMap :=
  st.pendingChanges

/-- `LocalChangeManager.addChange` (src/sync.js lines 191-222).  `now` is
the `Date.now()` timestamp; `isDeleted` is accepted (default `false` in JS)
but never used, because `convertToServerFormat` ignores its second
argument. -/
def addChange (st : SyncState) (now : Nat) (bookmarkArray : List Bookmark)
    (isDeleted : Bool) : SyncState :=
  if bookmarkArray.length = 0 then st
  else
    let changeEntries : List (String × PendingChange) :=
      bookmarkArray.map fun bookmark =>
        (bookmark.url, { timestamp := now, change := convertToServerFormat bookmark })
    if st.isSyncing then
      { st with tempQueue := changeEntries.foldl (fun q e => setEntry q e.1 e.2) st.tempQueue }
    else
      let changes := getPendingChanges st
      { st with
          pendingChanges := changeEntries.foldl (fun q e => setEntry q e.1 e.2) changes }

/-- `LocalChangeManager.clearChanges` (src/sync.js lines 232-234):
`LocalStorageMgr.set(STORAGE_KEY, {})`. -/
def clearChanges (st : SyncState) : SyncState :=
  { st with pendingChanges := [] }

/-- `LocalChangeManager.mergeTempQueueToStorage` (src/sync.js lines
236-247): when the temp queue is non-empty, the durable map is replaced
wholesale by a fresh object holding exactly the queue's entries, and the
queue is cleared; when the queue is empty nothing happens at all. -/
def mergeTempQueueToStorage (st : SyncState) : SyncState :=
  if st.tempQueue.length > 0 then
    { st with pendingChanges := st.tempQueue, tempQueue := [] }
  else st

/-- `LocalChangeManager.removeChange` (src/sync.js lines 225-229). -/
def removeChange (st : SyncState) (url : String) : SyncState :=
  { st with pendingChanges := st.pendingChanges.filter (fun e => ¬ (e.1 = url)) }

/-- `SyncManager.recordBookmarkChange` (src/sync.js lines 38-53): reads the
version and delegates to `addChange` only when it is non-zero. -/
def recordBookmarkChange (st : SyncState) (now : Nat) (bookmarks : List Bookmark)
    (isDeleted : Bool) : SyncState :=
  if getSyncVersion st ≠ 0 then addChange st now bookmarks isDeleted else st

/-- `SyncManager.syncChange` (src/sync.js lines 67-108), the incremental
strategy.  The `finally` block runs `mergeTempQueueToStorage` and resets
`isSyncing` on every exit of the `try` body; the already-syncing guard
throws before the `try`, so it bypasses the `finally`. -/
def syncChange (online : Bool) (now : Nat) (st : SyncState) :
    Except SyncError SyncResult × SyncState :=
  if st.isSyncing then
    (Except.error SyncError.alreadySyncing, st)
  else
    let st1 : SyncState := { st with isSyncing := true }
    if !canSync online then
      let st2 := mergeTempQueueToStorage st1
      (Except.error SyncError.networkUnavailable, { st2 with isSyncing := false })
    else
      let result : SyncResult := { lastSync := now, lastSyncResult := "success" }
      let pending := getPendingChanges st1
      let _changes := pending.map fun item => item.2.change
      let st2 : SyncState := { st1 with lastSyncVersion := some now }
      let st3 := clearChanges st2
      let st4 := mergeTempQueueToStorage st3
      (Except.ok result, { st4 with isSyncing := false })

/-- `SyncManager.syncAllLocalBookmarks` (src/sync.js lines 111-155), the
full-sync strategy.  `localBookmarks` is the id-to-entity mapping returned
by `LocalStorageMgr.getBookmarks()`.  Its `finally` block only resets
`isSyncing`; it does not touch the temp queue. -/
def syncAllLocalBookmarks (online : Bool) (now : Nat)
    (localBookmarks : List (String × Bookmark)) (st : SyncState) :
    Except SyncError SyncResult × SyncState :=
  if st.isSyncing then
    (Except.error SyncError.alreadySyncing, st)
  else
    let st1 : SyncState := { st with isSyncing := true }
    if !canSync online then
      (Except.error SyncError.networkUnavailable, { st1 with isSyncing := false })
    else
      let result : SyncResult := { lastSync := now, lastSyncResult := "success" }
      let _changes := (localBookmarks.map Prod.snd).map convertToServerFormat
      let st2 : SyncState := { st1 with lastSyncVersion := some now }
      (Except.ok result, { st2 with isSyncing := false })

/-- `SyncManager.startSync` (src/sync.js lines 27-35): full sync when the
stored version is 0 (first sync), incremental otherwise. -/
def startSync (online : Bool) (now : Nat)
    (localBookmarks : List (String × Bookmark)) (st : SyncState) :
    Except SyncError SyncResult × SyncState :=
  if getSyncVersion st = 0 then syncAllLocalBookmarks online now localBookmarks st
  else syncChange online now st

/-- `SyncManager.resetSyncCache` (src/sync.js lines 22-24): removes the
stored version key. -/
def resetSyncCache (st : SyncState) : SyncState :=
  { st with lastSyncVersion := none }

/-- `LocalChangeManager.cleanup` then `SyncManager.cleanup`
(src/sync.js lines 16-20 and 179-182). -/
def cleanup (st : SyncState) : SyncState :=
  { st with tempQueue := [], pendingChanges := [], isSyncing := false }

/-! ## Derived notions used to state the claims -/

/-- The keys of a change map, in order. -/
def keys (m : ChangeMap) : List String :=
  m.map Prod.fst

/-- The keyed writes that one `addChange` call derives from its bookmark
array (the `changeEntries` local of src/sync.js lines 199-205). -/
def entriesOf (now : Nat) (bs : List Bookmark) : List (String × PendingChange) :=
  bs.map fun bookmark =>
    (bookmark.url, { timestamp := now, change := convertToServerFormat bookmark })

/-- The last value written for key `k` in a list of keyed writes
(last writer wins), `none` if `k` is never written. -/
def lastWrite (entries : List (String × PendingChange)) (k : String) :
    Option PendingChange :=
  match entries with
  | [] => none
  | (k', v) :: rest =>
    match lastWrite rest k with
    | some w => some w
    | none => if k' = k then some v else none

/-- The last bookmark in `bs` whose URL is `k`, `none` if no such bookmark. -/
def lastMention (bs : List Bookmark) (k : String) : Option Bookmark :=
  match bs with
  | [] => none
  | b :: rest =>
    match lastMention rest k with
    | some w => some w
    | none => if b.url = k then some b else none

/-- One call to `record()` / `addChange`: the `Date.now()` timestamp, the
normalized bookmark array, and the `isDeleted` flag. -/
structure RecordCall where
  now : Nat
  bookmarks : List Bookmark
  isDeleted : Bool

/-- A finite sequence of `addChange` calls, run left to right. -/
def recordSeq (calls : List RecordCall) (st : SyncState) : SyncState :=
  calls.foldl (fun s c => addChange s c.now c.bookmarks c.isDeleted) st

/-- All keyed writes performed by a sequence of calls, in program order. -/
def callEntries (calls : List RecordCall) : List (String × PendingChange) :=
  (calls.map fun c => entriesOf c.now c.bookmarks).flatten

/-! ## Lemmas about the association-list operations -/

theorem cmLookup_setEntry (m : ChangeMap) (k : String) (v : PendingChange)
    (k' : String) :
    cmLookup (setEntry m k v) k' = if k = k' then some v else cmLookup m k' := by
  induction m with
  | nil => simp [setEntry, cmLookup]
  | cons hd tl ih =>
    obtain ⟨k₀, v₀⟩ := hd
    by_cases h₀ : k₀ = k
    · subst h₀
      by_cases h' : k₀ = k'
      · subst h'
        simp [setEntry, cmLookup]
      · simp [setEntry, cmLookup, h']
    · by_cases h' : k₀ = k'
      · subst h'
        have : ¬ k = k₀ := fun h => h₀ h.symm
        simp [setEntry, cmLookup, h₀, this]
      · simp [setEntry, cmLookup, h₀, h', ih]

theorem cmLookup_foldl_setEntry (entries : List (String × PendingChange))
    (m : ChangeMap) (k : String) :
    cmLookup (entries.foldl (fun q e => setEntry q e.1 e.2) m) k =
      match lastWrite entries k with
      | some v => some v
      | none => cmLookup m k := by
  induction entries generalizing m with
  | nil => simp [lastWrite]
  | cons hd tl ih =>
    obtain ⟨k₀, v₀⟩ := hd
    rw [List.foldl_cons, ih]
    cases h : lastWrite tl k with
    | some w => simp [lastWrite, h]
    | none =>
      by_cases hk : k₀ = k
      · subst hk
        simp [lastWrite, h, cmLookup_setEntry]
      · have : ¬ k = k₀ := fun h' => hk h'.symm
        simp [lastWrite, h, hk, cmLookup_setEntry, this]

theorem lastWrite_append (l₁ l₂ : List (String × PendingChange)) (k : String) :
    lastWrite (l₁ ++ l₂) k =
      match lastWrite l₂ k with
      | some v => some v
      | none => lastWrite l₁ k := by
  induction l₁ with
  | nil =>
    cases h : lastWrite l₂ k <;> simp [lastWrite, h]
  | cons hd tl ih =>
    obtain ⟨k₀, v₀⟩ := hd
    rw [List.cons_append]
    show (match lastWrite (tl ++ l₂) k with
      | some w => some w
      | none => if k₀ = k then some v₀ else none) = _
    rw [ih]
    cases h : lastWrite l₂ k <;> cases h' : lastWrite tl k <;>
      simp [lastWrite, h, h']

theorem lastWrite_entriesOf (now : Nat) (bs : List Bookmark) (k : String) :
    lastWrite (entriesOf now bs) k =
      (lastMention bs k).map
        (fun b => { timestamp := now, change := convertToServerFormat b }) := by
  induction bs with
  | nil => simp [lastWrite, lastMention, entriesOf]
  | cons b tl ih =>
    rw [entriesOf, List.map_cons]
    show (match lastWrite (tl.map _) k with
      | some w => some w
      | none => if b.url = k then some _ else none) = _
    rw [show (tl.map _ = entriesOf now tl) from rfl, ih]
    cases h : lastMention tl k with
    | some w => simp [lastMention, h]
    | none =>
      by_cases hk : b.url = k <;> simp [lastMention, h, hk]

theorem mem_keys_setEntry (m : ChangeMap) (k : String) (v : PendingChange)
    (a : String) :
    a ∈ keys (setEntry m k v) ↔ a ∈ keys m ∨ a = k := by
  induction m with
  | nil => simp [setEntry, keys, eq_comm]
  | cons hd tl ih =>
    obtain ⟨k₀, v₀⟩ := hd
    by_cases h₀ : k₀ = k
    · subst h₀
      simp [setEntry, keys, eq_comm]
      tauto
    · simp only [setEntry, h₀, if_false, keys, List.map_cons, List.mem_cons]
      rw [show (tl.map Prod.fst = keys tl) from rfl] at *
      rw [show ((setEntry tl k v).map Prod.fst = keys (setEntry tl k v)) from rfl]
      rw [ih]
      tauto

theorem nodup_keys_setEntry (m : ChangeMap) (k : String) (v : PendingChange)
    (h : (keys m).Nodup) : (keys (setEntry m k v)).Nodup := by
  induction m with
  | nil => simp [setEntry, keys]
  | cons hd tl ih =>
    obtain ⟨k₀, v₀⟩ := hd
    simp only [keys, List.map_cons, List.nodup_cons] at h
    by_cases h₀ : k₀ = k
    · subst h₀
      simpa [setEntry, keys] using h
    · have htl := ih h.2
      simp only [setEntry, h₀, if_false, keys, List.map_cons, List.nodup_cons]
      refine ⟨fun hmem => ?_, htl⟩
      rw [show ((setEntry tl k v).map Prod.fst = keys (setEntry tl k v)) from rfl] at hmem
      rcases (mem_keys_setEntry tl k v k₀).mp hmem with h' | h'
      · exact h.1 h'
      · exact h₀ h'

theorem nodup_keys_foldl_setEntry (entries : List (String × PendingChange))
    (m : ChangeMap) (h : (keys m).Nodup) :
    (keys (entries.foldl (fun q e => setEntry q e.1 e.2) m)).Nodup := by
  induction entries generalizing m with
  | nil => exact h
  | cons hd tl ih =>
    rw [List.foldl_cons]
    exact ih _ (nodup_keys_setEntry m hd.1 hd.2 h)

/-! ## Lemmas about `addChange` -/

theorem addChange_not_syncing (st : SyncState) (now : Nat)
    (bs : List Bookmark) (d : Bool) (h : st.isSyncing = false) :
    addChange st now bs d =
      { st with pendingChanges :=
          (entriesOf now bs).foldl (fun q e => setEntry q e.1 e.2) st.pendingChanges } := by
  cases bs with
  | nil => simp [addChange, entriesOf]
  | cons b tl => simp [addChange, getPendingChanges, entriesOf, h]

theorem addChange_syncing (st : SyncState) (now : Nat)
    (bs : List Bookmark) (d : Bool) (h : st.isSyncing = true) :
    addChange st now bs d =
      { st with tempQueue :=
          (entriesOf now bs).foldl (fun q e => setEntry q e.1 e.2) st.tempQueue } := by
  cases bs with
  | nil => simp [addChange, entriesOf]
  | cons b tl => simp [addChange, entriesOf, h]

/-- Composition of a sequence of idle-mode `addChange` calls: the durable
map is the fold of all keyed writes of the sequence, everything else is
untouched. -/
theorem recordSeq_eq (calls : List RecordCall) (st : SyncState)
    (h : st.isSyncing = false) :
    recordSeq calls st =
      { st with pendingChanges :=
          (callEntries calls).foldl (fun q e => setEntry q e.1 e.2) st.pendingChanges } := by
  induction calls generalizing st with
  | nil => simp [recordSeq, callEntries]
  | cons c tl ih =>
    have hstep := addChange_not_syncing st c.now c.bookmarks c.isDeleted h
    have h1 : (addChange st c.now c.bookmarks c.isDeleted).isSyncing = false := by
      rw [hstep]; exact h
    calc recordSeq (c :: tl) st
        = recordSeq tl (addChange st c.now c.bookmarks c.isDeleted) := rfl
      _ = _ := by
          rw [ih _ h1, hstep]
          simp [callEntries, List.foldl_append]

/-! ## Concrete sample data (used by witnesses and counterexamples) -/

def bookmarkA : Bookmark :=
  { id := "1", url := "https://a.example", title := "A", tags := none,
    excerpt := none, createdAt := 10, updatedAt := 11 }

def bookmarkA2 : Bookmark :=
  { id := "1", url := "https://a.example", title := "A2", tags := some ["t"],
    excerpt := some "x", createdAt := 10, updatedAt := 12 }

def bookmarkB : Bookmark :=
  { id := "2", url := "https://b.example", title := "B", tags := none,
    excerpt := none, createdAt := 20, updatedAt := 21 }

def changeA : PendingChange := { timestamp := 3, change := convertToServerFormat bookmarkA }

def changeB : PendingChange := { timestamp := 2, change := convertToServerFormat bookmarkB }

/-- A never-synced client: no stored version, nothing pending. -/
def freshState : SyncState :=
  { lastSyncVersion := none, pendingChanges := [], isSyncing := false, tempQueue := [] }

/-- An already-synced idle client with nothing pending. -/
def idleState : SyncState :=
  { lastSyncVersion := some 5, pendingChanges := [], isSyncing := false, tempQueue := [] }

/-- A client in the middle of a sync pass. -/
def syncingState : SyncState :=
  { lastSyncVersion := some 5, pendingChanges := [("https://b.example", changeB)],
    isSyncing := true, tempQueue := [] }

/-- An idle client whose temp queue is non-empty.  Reachable: a change
recorded while `syncAllLocalBookmarks` is suspended at one of its awaits
lands in the temp queue, and that strategy's `finally` block does not
drain the queue before resetting `isSyncing`. -/
def bufferedIdleState : SyncState :=
  { lastSyncVersion := some 5, pendingChanges := [("https://b.example", changeB)],
    isSyncing := false, tempQueue := [("https://a.example", changeA)] }

/-! ## The claims -/

/-- Claim C1, counterexample: a full-sync pass (`syncAllLocalBookmarks`)
that completes successfully while the overflow buffer is non-empty exits
with the buffer still non-empty and without writing its contents into the
durable pending set — its `finally` block only resets `isSyncing` and
never calls `mergeTempQueueToStorage`.  This refutes the claim that every
sync pass empties the overflow buffer on exit and flushes its contents
into durable storage. -/
theorem fullSync_exit_leaves_overflow_unflushed :
    ¬ ((syncAllLocalBookmarks true 7 [] bufferedIdleState).2.tempQueue = [] ∧
       (syncAllLocalBookmarks true 7 [] bufferedIdleState).2.pendingChanges
         = bufferedIdleState.tempQueue) := by
  decide

/-- Claim C1, amended: for the incremental pass (`syncChange`), every exit
path — success or network-precondition failure — leaves the overflow
buffer empty, and when the buffer was non-empty its contents wholesale
replace the durable pending set; the full-sync pass
(`syncAllLocalBookmarks`), by contrast, leaves the overflow buffer exactly
as it was on every exit and never writes its contents to the durable
pending set, which it leaves unchanged. -/
theorem overflow_flush_on_incremental_exit (st : SyncState) (online : Bool)
    (now : Nat) (lb : List (String × Bookmark)) (h : st.isSyncing = false) :
    (syncChange online now st).2.tempQueue = [] ∧
    (st.tempQueue ≠ [] → (syncChange online now st).2.pendingChanges = st.tempQueue) ∧
    (syncAllLocalBookmarks online now lb st).2.tempQueue = st.tempQueue ∧
    (syncAllLocalBookmarks online now lb st).2.pendingChanges = st.pendingChanges := by
  cases online <;> cases htq : st.tempQueue <;>
    simp [syncChange, syncAllLocalBookmarks, mergeTempQueueToStorage, canSync,
      clearChanges, getPendingChanges, h, htq]

theorem overflow_flush_on_incremental_exit_witness :
    (syncChange true 7 bufferedIdleState).2.tempQueue = [] ∧
    (syncChange true 7 bufferedIdleState).2.pendingChanges = bufferedIdleState.tempQueue ∧
    (syncAllLocalBookmarks true 7 [] bufferedIdleState).2.pendingChanges
      = bufferedIdleState.pendingChanges :=
  ⟨(overflow_flush_on_incremental_exit bufferedIdleState true 7 [] rfl).1,
   (overflow_flush_on_incremental_exit bufferedIdleState true 7 [] rfl).2.1 (by decide),
   (overflow_flush_on_incremental_exit bufferedIdleState true 7 [] rfl).2.2.2⟩

/-- Claim C2: while `isSyncing` is true, `startSync` and both strategies
fail with the already-syncing error and return the state completely
unchanged (in particular `isSyncing`, the stored version, and the durable
pending set). -/
theorem single_flight_guard (st : SyncState) (online : Bool) (now : Nat)
    (lb : List (String × Bookmark)) (h : st.isSyncing = true) :
    startSync online now lb st = (Except.error SyncError.alreadySyncing, st) ∧
    syncChange online now st = (Except.error SyncError.alreadySyncing, st) ∧
    syncAllLocalBookmarks online now lb st = (Except.error SyncError.alreadySyncing, st) := by
  by_cases hv : getSyncVersion st = 0 <;>
    simp [startSync, syncChange, syncAllLocalBookmarks, h, hv]

theorem single_flight_guard_witness :
    startSync true 9 [] syncingState = (Except.error SyncError.alreadySyncing, syncingState) ∧
    syncChange true 9 syncingState = (Except.error SyncError.alreadySyncing, syncingState) ∧
    syncAllLocalBookmarks true 9 [] syncingState
      = (Except.error SyncError.alreadySyncing, syncingState) :=
  single_flight_guard syncingState true 9 [] rfl

/-- Claim C3: an `addChange` call made while `isSyncing` is true never
touches the durable pending set (or the stored version); every change it
builds lands in the temp queue, keyed by bookmark URL with the last
bookmark for a given URL winning. -/
theorem record_while_syncing_buffers (st : SyncState) (now : Nat)
    (bs : List Bookmark) (d : Bool) (h : st.isSyncing = true) :
    (addChange st now bs d).pendingChanges = st.pendingChanges ∧
    (addChange st now bs d).lastSyncVersion = st.lastSyncVersion ∧
    ∀ k, cmLookup (addChange st now bs d).tempQueue k =
      match lastMention bs k with
      | some b => some { timestamp := now, change := convertToServerFormat b }
      | none => cmLookup st.tempQueue k := by
  rw [addChange_syncing st now bs d h]
  refine ⟨rfl, rfl, fun k => ?_⟩
  show cmLookup ((entriesOf now bs).foldl (fun q e => setEntry q e.1 e.2) st.tempQueue) k = _
  rw [cmLookup_foldl_setEntry, lastWrite_entriesOf]
  cases lastMention bs k <;> simp

theorem record_while_syncing_buffers_witness :
    cmLookup (addChange syncingState 4 [bookmarkA, bookmarkA2, bookmarkB] true).tempQueue
        "https://a.example"
      = some { timestamp := 4, change := convertToServerFormat bookmarkA2 } ∧
    (addChange syncingState 4 [bookmarkA, bookmarkA2, bookmarkB] true).pendingChanges
      = syncingState.pendingChanges :=
  ⟨((record_while_syncing_buffers syncingState 4 [bookmarkA, bookmarkA2, bookmarkB] true
      rfl).2.2 "https://a.example").trans (by decide),
   (record_while_syncing_buffers syncingState 4 [bookmarkA, bookmarkA2, bookmarkB] true rfl).1⟩

/-- Claim C4: a finite sequence of `addChange` calls issued while
`isSyncing` is false leaves the durable pending set holding at most one
entry per key (its key list stays duplicate-free), every key written by
the sequence maps to the write of the last call that mentioned it, keys
never written keep their prior value, and the temp queue is untouched. -/
theorem record_sequence_last_writer_wins (calls : List RecordCall)
    (st : SyncState) (h : st.isSyncing = false)
    (hkeys : (keys st.pendingChanges).Nodup) :
    (keys (recordSeq calls st).pendingChanges).Nodup ∧
    (recordSeq calls st).tempQueue = st.tempQueue ∧
    ∀ k, cmLookup (recordSeq calls st).pendingChanges k =
      match lastWrite (callEntries calls) k with
      | some v => some v
      | none => cmLookup st.pendingChanges k := by
  rw [recordSeq_eq calls st h]
  exact ⟨nodup_keys_foldl_setEntry _ _ hkeys, rfl,
    fun k => cmLookup_foldl_setEntry _ _ k⟩

def callsSample : List RecordCall :=
  [{ now := 4, bookmarks := [bookmarkA], isDeleted := false },
   { now := 5, bookmarks := [bookmarkA2, bookmarkB], isDeleted := true }]

theorem record_sequence_last_writer_wins_witness :
    cmLookup (recordSeq callsSample idleState).pendingChanges "https://a.example"
      = some { timestamp := 5, change := convertToServerFormat bookmarkA2 } ∧
    (keys (recordSeq callsSample idleState).pendingChanges).Nodup :=
  ⟨((record_sequence_last_writer_wins callsSample idleState rfl (by decide)).2.2
      "https://a.example").trans (by decide),
   (record_sequence_last_writer_wins callsSample idleState rfl (by decide)).1⟩

/-- Claim C5: when the connectivity predicate is false, both strategies
fail with the network-unavailable error, the stored sync version is left
untouched, the full-sync pass leaves the durable pending set completely
unchanged, and the incremental pass never empties a non-empty durable
pending set (its only durable write on this path is the mandated
overflow flush, which installs a non-empty map). -/
theorem offline_fails_without_touching_state (st : SyncState) (now : Nat)
    (lb : List (String × Bookmark)) (h : st.isSyncing = false) :
    (syncChange false now st).1 = Except.error SyncError.networkUnavailable ∧
    (syncChange false now st).2.lastSyncVersion = st.lastSyncVersion ∧
    (st.pendingChanges ≠ [] → (syncChange false now st).2.pendingChanges ≠ []) ∧
    (syncAllLocalBookmarks false now lb st).1 = Except.error SyncError.networkUnavailable ∧
    (syncAllLocalBookmarks false now lb st).2.lastSyncVersion = st.lastSyncVersion ∧
    (syncAllLocalBookmarks false now lb st).2.pendingChanges = st.pendingChanges := by
  cases htq : st.tempQueue <;>
    simp [syncChange, syncAllLocalBookmarks, mergeTempQueueToStorage, canSync, h, htq]

theorem offline_fails_without_touching_state_witness :
    (syncChange false 9 bufferedIdleState).1 = Except.error SyncError.networkUnavailable ∧
    (syncAllLocalBookmarks false 9 [] bufferedIdleState).1
      = Except.error SyncError.networkUnavailable ∧
    (syncChange false 9 bufferedIdleState).2.lastSyncVersion
      = bufferedIdleState.lastSyncVersion :=
  ⟨(offline_fails_without_touching_state bufferedIdleState 9 [] rfl).1,
   (offline_fails_without_touching_state bufferedIdleState 9 [] rfl).2.2.2.1,
   (offline_fails_without_touching_state bufferedIdleState 9 [] rfl).2.1⟩

/-- Claim C6: `startSync` dispatches to the full-sync strategy exactly when
the stored version reads as 0 (absent included) and to the incremental
strategy otherwise; and in the version-0 case, when idle, online, and at a
positive wall-clock time, the pass returns the success record, stores a
non-zero version, and ends with `isSyncing` false. -/
theorem startSync_dispatch_and_first_sync (st : SyncState) (online : Bool)
    (now : Nat) (lb : List (String × Bookmark)) :
    (getSyncVersion st = 0 → startSync online now lb st = syncAllLocalBookmarks online now lb st) ∧
    (getSyncVersion st ≠ 0 → startSync online now lb st = syncChange online now st) ∧
    (getSyncVersion st = 0 → st.isSyncing = false → 0 < now →
      (startSync true now lb st).1
        = Except.ok { lastSync := now, lastSyncResult := "success" } ∧
      getSyncVersion (startSync true now lb st).2 ≠ 0 ∧
      (startSync true now lb st).2.isSyncing = false) := by
  refine ⟨fun hv => by simp [startSync, hv], fun hv => by simp [startSync, hv],
    fun hv his hnow => ?_⟩
  have hv' : st.lastSyncVersion.getD 0 = 0 := hv
  simp [startSync, syncAllLocalBookmarks, canSync, getSyncVersion, hv', his]
  omega

theorem startSync_dispatch_and_first_sync_witness :
    (startSync true 7 [] freshState).1
      = Except.ok { lastSync := 7, lastSyncResult := "success" } ∧
    getSyncVersion (startSync true 7 [] freshState).2 ≠ 0 ∧
    (startSync true 7 [] freshState).2.isSyncing = false :=
  (startSync_dispatch_and_first_sync freshState true 7 []).2.2 rfl rfl (by decide)

/-- Claim C7: when the stored sync version reads as 0 (never synced),
`recordBookmarkChange` does not delegate to `addChange` at all — the state
(durable pending set and temp queue included) is returned unchanged, so
the change is silently dropped, for any bookmarks and any `isDeleted`
flag. -/
theorem record_dropped_when_never_synced (st : SyncState) (now : Nat)
    (bs : List Bookmark) (d : Bool) (h : getSyncVersion st = 0) :
    recordBookmarkChange st now bs d = st := by
  simp [recordBookmarkChange, h]

theorem record_dropped_when_never_synced_witness :
    recordBookmarkChange freshState 3 [bookmarkA] true = freshState :=
  record_dropped_when_never_synced freshState 3 [bookmarkA] true rfl

/-- Claim C8: `convertToServerFormat` takes no deletion parameter and
hardcodes `deleted := false` in every payload it produces, so `addChange`
is completely insensitive to its `isDeleted` argument — deletions are
captured as non-deleted snapshots. -/
theorem convert_hardcodes_deleted_false :
    (∀ b : Bookmark, (convertToServerFormat b).deleted = false) ∧
    (∀ (st : SyncState) (now : Nat) (bs : List Bookmark) (d d' : Bool),
      addChange st now bs d = addChange st now bs d') :=
  ⟨fun _ => rfl, fun _ _ _ _ _ => rfl⟩

/-- Claim C9: `addChange` on an empty bookmark array returns the state
unchanged — durable pending set and temp queue untouched — whatever the
value of `isSyncing` and of the `isDeleted` flag. -/
theorem record_empty_input_noop (st : SyncState) (now : Nat) (d : Bool) :
    addChange st now [] d = st :=
  rfl

/-- Claim C10: `clearChanges` always succeeds and is idempotent — after
each of two consecutive calls from any state the durable pending set is
empty, and the second call changes nothing. -/
theorem clearChanges_idempotent (st : SyncState) :
    (clearChanges st).pendingChanges = [] ∧
    (clearChanges (clearChanges st)).pendingChanges = [] ∧
    clearChanges (clearChanges st) = clearChanges st :=
  ⟨rfl, rfl, rfl⟩

end QRBookmark
